import Mathlib

/-!
Shallow embedding of the arb_vol arbitrage/volume bot (TypeScript) and proofs
about its specification claims.

The embedding translates the numeric and control-flow core of the source:

* `src/services/pool.ts` — virtual-reserve derivation (`getVirtualReserves`)
  and the price-deviation opportunity calculator
  (`calculateArbitrageOpportunity`, the balancing variant that returns the
  symmetric deviation as `profitPercentage`).
* `src/services/arbitrage.ts` — the optimal-amount opportunity calculator
  (`calculateArbitrageOpportunityWithOptimalAmount`), the two-threshold scan
  decision in `scanAndExecute`, and the single-flight busy-flag discipline.
* `src/services/queue.ts` (QueueService) — bounded event buffer
  (`addToQueue`), `shouldSkipProcessing` with error backoff and cooldown.
* `src/services/trades.ts` (TradeService) — `executeTrade` with its
  config guard, try/catch error normalisation, and chain-call sequence.
* `src/utils/index.ts` — `generateRandomTradeAmount` and
  `calculateOptimalTradeAmount`.

JavaScript floating-point arithmetic is idealised over `ℚ` where no square
root occurs and over `ℝ` where `Math.sqrt` appears; JS `Date.now()`
timestamps are idealised as integers; bigint arithmetic is `ℕ` with explicit
floor division.
-/

namespace ArbVol

/-- The two configured networks ("ethereum" = N1, "arbitrum" = N2). -/
inductive Network
  | ethereum
  | arbitrum
  deriving DecidableEq, Repr

/-! ## Pool reserves (`src/services/pool.ts`, `getVirtualReserves`) -/

/-- Fixed-point scale of the pool price root: `Q96 = 2 ** 96` (exact, since
`2 ** 96` is a power of two and hence an exact JS float before the `BigInt`
conversion). -/
def Q96 : ℕ := 2 ^ 96

/-- Raw virtual reserves, before the human-unit division by `10 ** decimals`:
`reserve1 = liquidity * sqrtPriceX96 / Q96` and
`reserve0 = liquidity * Q96 / sqrtPriceX96`, both in `BigInt` floor
division. -/
structure PoolReservesRaw where
  reserve0 : ℕ
  reserve1 : ℕ
  deriving DecidableEq, Repr

/-- Embedding of the reserve computation in `getVirtualReserves`
(`src/services/pool.ts` lines 177–182): floor divisions on `BigInt`. -/
def getVirtualReservesRaw (liquidity sqrtPriceX96 : ℕ) : PoolReservesRaw :=
  { reserve0 := liquidity * Q96 / sqrtPriceX96
    reserve1 := liquidity * sqrtPriceX96 / Q96 }

/-! ## Opportunity calculation (ℚ idealisation of the float arithmetic)

`calculateArbitrageOpportunity` (`src/services/pool.ts`, balancing variant):
USD price of the traded token on each network is
`seedToWethRate * prices.ethereum.usd`; the deviation is
`|p_eth − p_arb| / ((p_eth + p_arb)/2) * 100`, returned in the
`profitPercentage` field ("Now represents price deviation"); the cheaper
network is the buy side. -/

/-- An arbitrage opportunity record over a numeric type `α`
(`ArbitrageOpportunity` in `src/types`). -/
structure ArbitrageOpportunity (α : Type) where
  buyNetwork : Network
  sellNetwork : Network
  buyPrice : α
  sellPrice : α
  profitPercentage : α
  estimatedProfit : α
  gasEstimate : ℕ
  tradeAmount : α
  deriving Repr

/-- USD price of the traded (SEED) token from a quote:
`seedToWethRate * ethUsd` (code: `ethQuote.seedToWethRate *
prices.ethereum.usd`). -/
def seedUsdPrice (seedToWethRate ethUsd : ℚ) : ℚ :=
  seedToWethRate * ethUsd

/-- Symmetric percentage deviation of the two USD prices, exactly as both
opportunity calculators compute it:
`(|p1 − p2| / ((p1 + p2) / 2)) * 100`. -/
def priceDeviationPercentage (p1 p2 : ℚ) : ℚ :=
  |p1 - p2| / ((p1 + p2) / 2) * 100

/-- Embedding of `calculateArbitrageOpportunity`
(`src/services/pool.ts` balancing variant, lines 377–419): computes both
networks' USD prices, the symmetric deviation, picks the cheaper network as
the buy side, and returns the deviation in `profitPercentage`, the absolute
difference in `estimatedProfit`, `150000 + 80000` as the gas estimate and
the average price in `tradeAmount`. -/
def calculateArbitrageOpportunity (ethRate arbRate ethUsd : ℚ) :
    ArbitrageOpportunity ℚ :=
  let ethSeedUsdPrice := seedUsdPrice ethRate ethUsd
  let arbSeedUsdPrice := seedUsdPrice arbRate ethUsd
  let priceDifference := |ethSeedUsdPrice - arbSeedUsdPrice|
  let averagePrice := (ethSeedUsdPrice + arbSeedUsdPrice) / 2
  let deviation := priceDeviationPercentage ethSeedUsdPrice arbSeedUsdPrice
  if ethSeedUsdPrice < arbSeedUsdPrice then
    { buyNetwork := .ethereum
      sellNetwork := .arbitrum
      buyPrice := ethSeedUsdPrice
      sellPrice := arbSeedUsdPrice
      profitPercentage := deviation
      estimatedProfit := priceDifference
      gasEstimate := 150000 + 80000
      tradeAmount := averagePrice }
  else
    { buyNetwork := .arbitrum
      sellNetwork := .ethereum
      buyPrice := arbSeedUsdPrice
      sellPrice := ethSeedUsdPrice
      profitPercentage := deviation
      estimatedProfit := priceDifference
      gasEstimate := 150000 + 80000
      tradeAmount := averagePrice }

/-! ## The two-threshold scan decision (`src/services/arbitrage.ts`,
`scanAndExecute`, lines 159–185) -/

/-- Outcome of the threshold policy applied to a found opportunity. -/
inductive ScanAction
  | skipBalanced
  | executeTrade
  | logNoPrivateKey
  | skipBelowProfit
  deriving DecidableEq, Repr

/-- Embedding of the decision sequence of `scanAndExecute` once an
opportunity exists: first `profitPercentage <= maxPriceDeviationThreshold`
stops (markets balanced); else `profitPercentage >= minProfitThreshold`
executes when a private key is configured and only logs otherwise; else the
scan skips below the profit threshold. -/
def scanDecision {α : Type} [LinearOrder α]
    (profitPercentage maxPriceDeviationThreshold minProfitThreshold : α)
    (hasPrivateKey : Bool) : ScanAction :=
  if profitPercentage ≤ maxPriceDeviationThreshold then
    .skipBalanced
  else if minProfitThreshold ≤ profitPercentage then
    if hasPrivateKey then .executeTrade else .logNoPrivateKey
  else
    .skipBelowProfit

/-! ## Event queue and scheduler (`QueueService`, `src/services/queue.ts`) -/

/-- Payload of a `Swap` event notification (`SwapEventData` in
`src/types`); only the fields the queue logic touches are carried, the scan
never consumes the payload. -/
structure SwapEventData where
  network : String
  txHash : String
  blockNumber : ℕ
  deriving DecidableEq, Repr

/-- Bounded-buffer capacity (`maxQueueSize` field, default 100). -/
def maxQueueSize : ℕ := 100

/-- Embedding of `QueueService.addToQueue`: if the buffer has reached
capacity, `shift()` drops the oldest (front) entry, then `push` appends the
new event at the back. -/
def addToQueue (eventQueue : List SwapEventData) (eventData : SwapEventData) :
    List SwapEventData :=
  (if maxQueueSize ≤ eventQueue.length then eventQueue.drop 1 else eventQueue) ++ [eventData]

/-- Mutable scheduler state of `QueueService`; timestamps are
`Date.now()` milliseconds, idealised as integers. -/
structure QueueState where
  isGloballyProcessing : Bool
  consecutiveErrors : ℕ
  lastErrorTime : ℤ
  lastProcessedTime : ℤ
  processingCooldown : ℤ
  deriving DecidableEq, Repr

/-- Consecutive-error cap (`maxConsecutiveErrors` field). -/
def maxConsecutiveErrors : ℕ := 5

/-- Error backoff window in milliseconds (`errorBackoffTime` field). -/
def errorBackoffTime : ℤ := 30000

/-- Embedding of `QueueService.shouldSkipProcessing`: skip while busy; skip
while the error count has reached the cap and the backoff window since the
last error has not elapsed (once elapsed the error count is reset to zero
and the check falls through); finally skip while the cooldown since the
last processed timestamp has not elapsed. Returns the boolean together with
the (possibly error-reset) state. -/
def shouldSkipProcessing (st : QueueState) (now : ℤ) : Bool × QueueState :=
  if st.isGloballyProcessing then
    (true, st)
  else if maxConsecutiveErrors ≤ st.consecutiveErrors then
    if now - st.lastErrorTime < errorBackoffTime then
      (true, st)
    else
      let st' := { st with consecutiveErrors := 0 }
      (decide (now - st'.lastProcessedTime < st'.processingCooldown), st')
  else
    (decide (now - st.lastProcessedTime < st.processingCooldown), st)

/-! ## Single-flight scan discipline (`scanAndExecute`,
`src/services/arbitrage.ts` lines 111–191, and
`QueueService.processEventQueue`) -/

/-- Busy-flag state of the orchestrator: the `isProcessing` flag plus a
ghost counter of scan bodies currently in flight. -/
structure OrchState where
  isProcessing : Bool
  inFlight : ℕ
  deriving DecidableEq, Repr

/-- Entry of `scanAndExecute`: the guard `if (this.isProcessing) return;`
and the assignment `this.isProcessing = true` run synchronously with no
intervening `await`, so they form one atomic step. A call that finds the
flag set returns immediately with the state unchanged; otherwise the flag
is set and a scan body starts. -/
def beginScan (st : OrchState) : OrchState :=
  if st.isProcessing then st else { isProcessing := true, inFlight := st.inFlight + 1 }

/-- Completion of a scan body, successfully (`ok = true`) or by a thrown
error (`ok = false`): the `finally` block clears the flag in both cases. -/
def endScan (st : OrchState) (_ok : Bool) : OrchState :=
  { isProcessing := false, inFlight := st.inFlight - 1 }

/-- States reachable from the initial idle orchestrator. An `endScan` event
corresponds to the termination of a previously begun scan body (each begun
body terminates exactly once, by `try`/`finally`), so it is only enabled
while a body is in flight. -/
inductive OrchReachable : OrchState → Prop
  | init : OrchReachable ⟨false, 0⟩
  | begins {st : OrchState} : OrchReachable st → OrchReachable (beginScan st)
  | ends {st : OrchState} (ok : Bool) : OrchReachable st → 1 ≤ st.inFlight →
      OrchReachable (endScan st ok)

/-! ## Optimal trade amount (`calculateOptimalTradeAmount`,
`src/utils/index.ts` variant imported by the optimal-amount orchestrator)
and the advanced opportunity calculator
(`calculateArbitrageOpportunityWithOptimalAmount`,
`src/services/arbitrage.ts` lines 220–323) -/

/-- Embedding of the arithmetic core of `calculateOptimalTradeAmount`:
`result = (Math.sqrt(a*b*c*d) - b*c) / (a + c)`, where `a` and `d` are the
buy-side pool's SEED and WETH reserve numbers and `b = c` is the sell-side
pool's WETH reserve read twice. -/
noncomputable def calculateOptimalTradeAmount (a b c d : ℝ) : ℝ :=
  (Real.sqrt (a * b * c * d) - b * c) / (a + c)

/-- Embedding of `calculateArbitrageOpportunityWithOptimalAmount` given the
two quotes, the base USD price and the four reserve numbers: computes the
optimal amount, USD-denominates both networks, picks the cheaper network as
the buy side, and returns `(sell − buy)/buy · 100` as `profitPercentage`
and the optimal amount — unchecked for sign — as `tradeAmount` (the code
routes it through `formatUnits`/`parseFloat` at 18 decimals, the identity
in this idealisation). -/
noncomputable def calculateArbitrageOpportunityWithOptimalAmount
    (ethRate arbRate ethUsd a b c d : ℝ) : ArbitrageOpportunity ℝ :=
  let optimalAmount := calculateOptimalTradeAmount a b c d
  let ethSeedUsdPrice := ethRate * ethUsd
  let arbSeedUsdPrice := arbRate * ethUsd
  let priceDifference := |ethSeedUsdPrice - arbSeedUsdPrice|
  if ethSeedUsdPrice < arbSeedUsdPrice then
    { buyNetwork := .ethereum, sellNetwork := .arbitrum,
      buyPrice := ethSeedUsdPrice, sellPrice := arbSeedUsdPrice,
      profitPercentage := (arbSeedUsdPrice - ethSeedUsdPrice) / ethSeedUsdPrice * 100,
      estimatedProfit := priceDifference, gasEstimate := 150000 + 80000,
      tradeAmount := optimalAmount }
  else
    { buyNetwork := .arbitrum, sellNetwork := .ethereum,
      buyPrice := arbSeedUsdPrice, sellPrice := ethSeedUsdPrice,
      profitPercentage := (ethSeedUsdPrice - arbSeedUsdPrice) / arbSeedUsdPrice * 100,
      estimatedProfit := priceDifference, gasEstimate := 150000 + 80000,
      tradeAmount := optimalAmount }

/-- The gas-buffer balance guard of `executeArbitrage`
(`src/services/arbitrage.ts` lines 392–396): the buy leg proceeds unless
`wethBalance < tradeAmount + 0.01`. -/
def wethBalanceCheckPasses (wethBalance tradeAmount : ℝ) : Prop :=
  ¬(wethBalance < tradeAmount + 1/100)

/-! ## Volume rebalancer randomized sizing (`generateRandomTradeAmount`,
`src/utils/index.ts` lines 12–47) -/

/-- Embedding of `generateRandomTradeAmount` with the `Math.random()` draw
made an explicit argument: base amount `deficit/price`, random multiplier
in the configured band, `1/sqrt(attempt+1)` attempt scaling, then the $150
floor (`Math.max`) followed by the 80%-of-deficit cap (`Math.min`); the
final wei conversion is the identity in this idealisation. -/
noncomputable def generateRandomTradeAmount (volumeDeficit ethPrice : ℝ)
    (attemptNumber : ℕ) (minMultiplier maxMultiplier randomDraw : ℝ) : ℝ :=
  let baseAmountEth := volumeDeficit / ethPrice
  let randomMultiplier := randomDraw * (maxMultiplier - minMultiplier) + minMultiplier
  let attemptScale := 1 / Real.sqrt ((attemptNumber : ℝ) + 1)
  let randomizedAmountEth := baseAmountEth * randomMultiplier * attemptScale
  let minTradeEth := 150 / ethPrice
  let maxTradeEth := volumeDeficit * (8/10) / ethPrice
  min (max randomizedAmountEth minTradeEth) maxTradeEth

/-! ## Trade execution (`TradeService.executeTrade`, `src/services/trades.ts`,
most-evolved variant with injected PoolService)

The chain is modelled as an oracle environment fixing the outcome of each
external call the function makes, in program order; every fallible call
either yields a value or throws a `JsError` carrying an optional contract
revert `reason` and a raw `message`. The signer's balance of the input
token is part of the environment so that theorems can speak about it —
the function itself never consults it. -/

/-- Trade request (`TradeParams` in `src/types`); token amounts in wei. -/
structure TradeParams where
  tokenIn : String
  tokenOut : String
  fee : ℕ
  amountIn : ℤ
  network : String
  minAmountOut : ℤ
  deriving DecidableEq, Repr

/-- A thrown JS error as `executeTrade`'s catch block sees it: an optional
contract revert reason (`error.reason`) and the raw message
(`error.message`). -/
structure JsError where
  reason : Option String
  message : String
  deriving DecidableEq, Repr

/-- Result record of `executeTrade`: `{success, txHash?, error?}`. -/
structure TradeResult where
  success : Bool
  txHash : Option String
  error : Option String
  deriving DecidableEq, Repr

/-- The part of `getPoolInfo`'s result that `executeTrade` reads. -/
structure PoolInfoResult where
  isValid : Bool
  actualFee : Option ℕ
  deriving DecidableEq, Repr

/-- Oracle environment: outcome of each chain interaction of
`executeTrade`, in program order, plus the signer's balance of `tokenIn`
(present only so that theorems can quantify over it; the code never reads
it). -/
structure ChainEnv where
  networkConfigured : Bool
  poolConfigured : Bool
  poolInfoResult : Except JsError PoolInfoResult
  allowanceResult : Except JsError ℤ
  approveOutcome : Except JsError Unit
  gasPriceResult : Except JsError ℤ
  submitResult : Except JsError String
  waitOutcome : Except JsError Unit
  balanceOfTokenIn : ℤ

/-- Embedding of the `try` block of `executeTrade` together with a flag
recording whether control reaches the `swapRouter.exactInputSingle` call
(the swap submission). Mirrors, in order: the `poolConfigs?.[0]` check, the
`getPoolInfo` call with its `!poolInfo.isValid || !poolInfo.actualFee`
falsy check (a fee of 0 is falsy in JS), the allowance read, the
conditional approval, the gas-price read, the swap submission, and
`swapTx.wait(1)`. -/
def executeTradeRun (env : ChainEnv) (p : TradeParams) :
    Except JsError String × Bool :=
  if env.poolConfigured = false then
    (.error ⟨none, "Pool configuration not found"⟩, false)
  else match env.poolInfoResult with
    | .error e => (.error e, false)
    | .ok info =>
      if info.isValid = false ∨ info.actualFee.getD 0 = 0 then
        (.error ⟨none, "Invalid pool or fee not found"⟩, false)
      else match env.allowanceResult with
        | .error e => (.error e, false)
        | .ok allowance =>
          match (if allowance < p.amountIn then env.approveOutcome else .ok ()) with
          | .error e => (.error e, false)
          | .ok _ =>
            match env.gasPriceResult with
            | .error e => (.error e, false)
            | .ok _ =>
              match env.submitResult with
              | .error e => (.error e, true)
              | .ok txHash =>
                match env.waitOutcome with
                | .error e => (.error e, true)
                | .ok _ => (.ok txHash, true)

/-- The `try` block's outcome: the confirmed transaction hash, or the
thrown error. -/
def executeTradeBody (env : ChainEnv) (p : TradeParams) : Except JsError String :=
  (executeTradeRun env p).1

/-- Whether the swap transaction submission is reached. -/
def swapSubmitted (env : ChainEnv) (p : TradeParams) : Bool :=
  (executeTradeRun env p).2

/-- JS `s.split("(")[0]`: the prefix of `s` before its first opening
parenthesis (the whole string when none occurs). -/
def truncAtParen (s : String) : String :=
  String.mk (s.toList.takeWhile (fun ch => ch ≠ '('))

/-- JS `s.trim()`: strip leading and trailing whitespace. -/
def trimWs (s : String) : String :=
  String.mk (((s.toList.dropWhile Char.isWhitespace).reverse.dropWhile
    Char.isWhitespace).reverse)

/-- The catch block's error normalisation:
`(error.reason || error.message).split("(")[0].trim()`. -/
def simplifyError (e : JsError) : String :=
  trimWs (truncAtParen (e.reason.getD e.message))

/-- Embedding of `TradeService.executeTrade`: the configuration guard
(missing network, wallet or swap router) returns a failure result before
the `try` block; inside it, a confirmed swap returns
`{success: true, txHash}` and any thrown error is caught and returned as
`{success: false, error: simplifyError e}`. -/
def executeTrade (env : ChainEnv) (p : TradeParams) : TradeResult :=
  if env.networkConfigured = false then
    { success := false, txHash := none,
      error := some ("Network " ++ p.network ++ " not configured for trading") }
  else match executeTradeBody env p with
    | .ok txHash => { success := true, txHash := some txHash, error := none }
    | .error e => { success := false, txHash := none, error := some (simplifyError e) }

/-- Environment of a trade whose `amountIn` exceeds the signer's balance:
every chain step succeeds until the submitted swap reverts at confirmation
(the swap is broadcast with an explicit fixed gas limit, so no pre-submission
gas estimation rejects it). -/
def envInsufficientBalance : ChainEnv :=
  { networkConfigured := true
    poolConfigured := true
    poolInfoResult := .ok ⟨true, some 3000⟩
    allowanceResult := .ok 1000000000
    approveOutcome := .ok ()
    gasPriceResult := .ok 30
    submitResult := .ok "0xdeadbeef"
    waitOutcome := .error ⟨some "STF (transfer amount exceeds balance)",
      "execution reverted"⟩
    balanceOfTokenIn := 0 }

/-- Trade request asking for more than the 0 balance in
`envInsufficientBalance`. -/
def tradeParamsOverBalance : TradeParams :=
  ⟨"0xWETH", "0xSEED", 3000, 100, "ethereum", 0⟩

/-- Environment for a network with no signing credential or router. -/
def envNotConfigured : ChainEnv :=
  { envInsufficientBalance with networkConfigured := false }

/-! ## Claim C1 -/

/-- Claim C1: with quote(N1 = ethereum) = 100 traded per base (so the
code's base-per-traded `seedToWethRate` is 1/100), quote(N2 = arbitrum) =
105 traded per base (rate 1/105) and base USD price 2000, the computed
opportunity prices N1 at 20 USD, N2 within 0.01 of 19.05 USD, reports a
deviation of exactly 200/41 (within 0.01 of 4.87), and buys on the cheaper
N2 = arbitrum, selling on N1 = ethereum. -/
theorem calculateArbitrageOpportunity_c1_scenario :
    (calculateArbitrageOpportunity (1/100) (1/105) 2000).buyNetwork = .arbitrum ∧
    (calculateArbitrageOpportunity (1/100) (1/105) 2000).sellNetwork = .ethereum ∧
    (calculateArbitrageOpportunity (1/100) (1/105) 2000).sellPrice = 20 ∧
    |(calculateArbitrageOpportunity (1/100) (1/105) 2000).buyPrice - 1905/100| < 1/100 ∧
    (calculateArbitrageOpportunity (1/100) (1/105) 2000).profitPercentage = 200/41 ∧
    |(calculateArbitrageOpportunity (1/100) (1/105) 2000).profitPercentage - 487/100| < 1/100 := by
  have h : calculateArbitrageOpportunity (1/100) (1/105) 2000 =
      { buyNetwork := .arbitrum, sellNetwork := .ethereum, buyPrice := 400/21,
        sellPrice := 20, profitPercentage := 200/41, estimatedProfit := 20/21,
        gasEstimate := 230000, tradeAmount := 410/21 } := by
    rw [calculateArbitrageOpportunity]
    norm_num [seedUsdPrice, priceDeviationPercentage, abs_of_nonneg, abs_of_pos]
  rw [h]
  refine ⟨rfl, rfl, rfl, ?_, rfl, ?_⟩ <;> rw [abs_sub_lt_iff] <;> norm_num

/-! ## Claim C3 -/

/-- Claim C3: once a scan produces an opportunity, the two-threshold policy
of `scanAndExecute` never executes when the deviation is at most the
balance threshold, and above it executes exactly when the deviation reaches
the minimum-profit threshold and a private key is configured; a profitable
opportunity without a key is only logged. -/
theorem scanDecision_two_threshold_policy {α : Type} [LinearOrder α]
    (p bal minp : α) (hasKey : Bool) :
    (p ≤ bal → scanDecision p bal minp hasKey ≠ .executeTrade) ∧
    (bal < p →
      (scanDecision p bal minp hasKey = .executeTrade ↔
        (minp ≤ p ∧ hasKey = true))) ∧
    (bal < p → minp ≤ p → hasKey = false →
      scanDecision p bal minp hasKey = .logNoPrivateKey) := by
  unfold scanDecision
  refine ⟨fun h => by simp [h], fun h => ?_, fun h h2 h3 => ?_⟩
  · rw [if_neg (not_le.mpr h)]
    by_cases h2 : minp ≤ p <;> simp [h2]
  · rw [if_neg (not_le.mpr h), if_pos h2, h3]
    simp

/-- Witness for C3 at concrete inputs: deviation 0.15% with balance
threshold 0.2% is not executed; deviation 5% with thresholds 0.2%/0.1% and
a configured key is executed. -/
theorem scanDecision_two_threshold_policy_witness :
    scanDecision (15/100 : ℚ) (2/10) (1/10) true ≠ .executeTrade ∧
    scanDecision (5 : ℚ) (2/10) (1/10) true = .executeTrade :=
  ⟨(scanDecision_two_threshold_policy (15/100 : ℚ) (2/10) (1/10) true).1 (by norm_num),
   ((scanDecision_two_threshold_policy (5 : ℚ) (2/10) (1/10) true).2.1
      (by norm_num)).mpr ⟨by norm_num, rfl⟩⟩

/-! ## Claim C4 -/

/-- Claim C4: at most one scan body is ever in flight; a call that finds
the busy flag set returns immediately without side effects; and the flag is
cleared exactly when the scan body completes or throws (the `finally`
clears it in both cases), so a scan never overlaps itself. -/
theorem scanAndExecute_single_flight (st : OrchState) :
    (OrchReachable st →
      st.inFlight ≤ 1 ∧
      (st.isProcessing = true ↔ st.inFlight = 1) ∧
      (st.isProcessing = true → beginScan st = st)) ∧
    (∀ ok : Bool, (endScan st ok).isProcessing = false) := by
  refine ⟨fun h => ?_, fun _ => rfl⟩
  have key : ∀ s, OrchReachable s →
      s.inFlight ≤ 1 ∧ (s.isProcessing = true ↔ s.inFlight = 1) := by
    intro s hs
    induction hs with
    | init => simp
    | @begins t h ih =>
        rcases ih with ⟨hle, hiff⟩
        unfold beginScan
        split
        · exact ⟨hle, hiff⟩
        · next hp =>
            have hne : t.inFlight ≠ 1 := fun hh => hp (hiff.mpr hh)
            have hzero : t.inFlight = 0 := by omega
            simp [hzero]
    | @ends t ok h hge ih =>
        rcases ih with ⟨hle, hiff⟩
        constructor
        · show t.inFlight - 1 ≤ 1
          omega
        · show (false = true ↔ t.inFlight - 1 = 1)
          simp only [Bool.false_eq_true, false_iff]
          omega
  rcases key st h with ⟨hle, hiff⟩
  refine ⟨hle, hiff, fun hp => ?_⟩
  unfold beginScan
  simp [hp]

/-- Witness for C4: the state with the flag set and one scan in flight
(reached by a single `beginScan` from the idle initial state) is reachable,
satisfies the in-flight bound, and a re-entrant `beginScan` is a no-op. -/
theorem scanAndExecute_single_flight_witness :
    (⟨true, 1⟩ : OrchState).inFlight ≤ 1 ∧ beginScan ⟨true, 1⟩ = ⟨true, 1⟩ := by
  have hr : OrchReachable ⟨true, 1⟩ := by
    have h := OrchReachable.begins (OrchReachable.init)
    simpa [beginScan] using h
  rcases (scanAndExecute_single_flight ⟨true, 1⟩).1 hr with ⟨h1, _, h3⟩
  exact ⟨h1, h3 rfl⟩

/-! ## Claim C7 -/

/-- Floor-division error bound for the product of the two reserve
quotients: `(L·Q/s) · (L·s/Q)` underestimates `L²` by at most the two
quotients themselves. -/
theorem floor_div_product_bounds (L s Q : ℕ) (hs : 0 < s) (hQ : 0 < Q) :
    (L * Q / s) * (L * s / Q) ≤ L ^ 2 ∧
    L ^ 2 ≤ (L * Q / s) * (L * s / Q) + (L * Q / s) + (L * s / Q) := by
  constructor
  · have h0 : (L * Q / s) * s ≤ L * Q := Nat.div_mul_le_self _ _
    have h1 : (L * s / Q) * Q ≤ L * s := Nat.div_mul_le_self _ _
    have h2 : ((L * Q / s) * (L * s / Q)) * (s * Q) ≤ (L ^ 2) * (s * Q) := by
      calc ((L * Q / s) * (L * s / Q)) * (s * Q)
          = ((L * Q / s) * s) * ((L * s / Q) * Q) := by ring
        _ ≤ (L * Q) * (L * s) := Nat.mul_le_mul h0 h1
        _ = (L ^ 2) * (s * Q) := by ring
    exact Nat.le_of_mul_le_mul_right h2 (by positivity)
  · have e0 : L * Q < s * (L * Q / s + 1) := by
      have hm : (L * Q) % s < s := Nat.mod_lt _ hs
      have hd : s * (L * Q / s) + (L * Q) % s = L * Q := Nat.div_add_mod _ _
      rw [Nat.mul_add, Nat.mul_one]
      omega
    have e1 : L * s < Q * (L * s / Q + 1) := by
      have hm : (L * s) % Q < Q := Nat.mod_lt _ hQ
      have hd : Q * (L * s / Q) + (L * s) % Q = L * s := Nat.div_add_mod _ _
      rw [Nat.mul_add, Nat.mul_one]
      omega
    have h3 : (L ^ 2) * (s * Q) < ((L * Q / s + 1) * (L * s / Q + 1)) * (s * Q) := by
      calc (L ^ 2) * (s * Q) = (L * Q) * (L * s) := by ring
        _ < (s * (L * Q / s + 1)) * (Q * (L * s / Q + 1)) := Nat.mul_lt_mul'' e0 e1
        _ = ((L * Q / s + 1) * (L * s / Q + 1)) * (s * Q) := by ring
    have h4 : L ^ 2 < (L * Q / s + 1) * (L * s / Q + 1) :=
      lt_of_mul_lt_mul_right h3 (Nat.zero_le _)
    have h5 : (L * Q / s + 1) * (L * s / Q + 1)
        = (L * Q / s) * (L * s / Q) + (L * Q / s) + (L * s / Q) + 1 := by ring
    omega

/-- Claim C7: for nonzero liquidity and nonzero `sqrtPriceX96`, the product
of the raw virtual reserves equals `liquidity²` within the floor-division
error of the two quotients: it never exceeds `liquidity²` and falls short
of it by at most `reserve0 + reserve1`. -/
theorem getVirtualReservesRaw_roundtrip (L s : ℕ) (_hL : 0 < L) (hs : 0 < s) :
    (getVirtualReservesRaw L s).reserve0 * (getVirtualReservesRaw L s).reserve1 ≤ L ^ 2 ∧
    L ^ 2 ≤ (getVirtualReservesRaw L s).reserve0 * (getVirtualReservesRaw L s).reserve1
      + (getVirtualReservesRaw L s).reserve0 + (getVirtualReservesRaw L s).reserve1 := by
  have hQ : 0 < Q96 := by norm_num [Q96]
  simpa [getVirtualReservesRaw] using floor_div_product_bounds L s Q96 hs hQ

/-- Witness for C7 at liquidity 3 and price root `2 ^ 96`. -/
theorem getVirtualReservesRaw_roundtrip_witness :
    0 < 3 ∧ 0 < (2 ^ 96 : ℕ) ∧
    (getVirtualReservesRaw 3 (2 ^ 96)).reserve0 * (getVirtualReservesRaw 3 (2 ^ 96)).reserve1
      ≤ 3 ^ 2 ∧
    3 ^ 2 ≤ (getVirtualReservesRaw 3 (2 ^ 96)).reserve0 * (getVirtualReservesRaw 3 (2 ^ 96)).reserve1
      + (getVirtualReservesRaw 3 (2 ^ 96)).reserve0 + (getVirtualReservesRaw 3 (2 ^ 96)).reserve1 :=
  ⟨by norm_num, by positivity,
    (getVirtualReservesRaw_roundtrip 3 (2 ^ 96) (by norm_num) (by positivity)).1,
    (getVirtualReservesRaw_roundtrip 3 (2 ^ 96) (by norm_num) (by positivity)).2⟩

/-! ## Claim C8 -/

/-- Helper: one `addToQueue` step preserves the capacity bound. -/
theorem addToQueue_length_le (q : List SwapEventData) (e : SwapEventData)
    (h : q.length ≤ maxQueueSize) : (addToQueue q e).length ≤ maxQueueSize := by
  unfold addToQueue
  split
  · next hfull =>
      simp only [List.length_append, List.length_drop, List.length_cons,
        List.length_nil]
      have hcap : 0 < maxQueueSize := by norm_num [maxQueueSize]
      omega
  · next hnot =>
      simp only [List.length_append, List.length_cons, List.length_nil]
      omega

/-- Helper: the capacity bound holds for every buffer built from the empty
queue by a sequence of pushes. -/
theorem foldl_addToQueue_length_le (es : List SwapEventData)
    (q : List SwapEventData) (h : q.length ≤ maxQueueSize) :
    (es.foldl addToQueue q).length ≤ maxQueueSize := by
  induction es generalizing q with
  | nil => exact h
  | cons e es ih => exact ih _ (addToQueue_length_le q e h)

/-- Claim C8: a buffer built by any sequence of enqueued swap events never
exceeds the capacity of 100, and a push onto a full buffer drops exactly
the oldest (front) entry and appends the new event at the back, leaving the
most recent events in order with the newest last. -/
theorem addToQueue_capacity_and_overflow (es q : List SwapEventData)
    (e : SwapEventData) :
    (es.foldl addToQueue []).length ≤ maxQueueSize ∧
    (q.length = maxQueueSize →
      addToQueue q e = q.drop 1 ++ [e] ∧
      (addToQueue q e).length = maxQueueSize ∧
      (addToQueue q e).getLast? = some e) := by
  refine ⟨foldl_addToQueue_length_le es [] (by simp), fun hfull => ?_⟩
  have heq : addToQueue q e = q.drop 1 ++ [e] := by
    unfold addToQueue
    rw [if_pos (le_of_eq hfull.symm)]
  refine ⟨heq, ?_, by rw [heq]; exact List.getLast?_concat _⟩
  rw [heq]
  simp only [List.length_append, List.length_drop, List.length_cons, List.length_nil]
  have hcap : 0 < maxQueueSize := by norm_num [maxQueueSize]
  omega

/-- Witness for C8: pushing onto a full buffer of 100 identical events
drops the front entry and keeps the newest at the back. -/
theorem addToQueue_capacity_and_overflow_witness :
    addToQueue (List.replicate 100 ⟨"ethereum", "0xaa", 1⟩) ⟨"arbitrum", "0xbb", 2⟩
      = (List.replicate 100 ⟨"ethereum", "0xaa", 1⟩).drop 1 ++ [⟨"arbitrum", "0xbb", 2⟩] ∧
    (addToQueue (List.replicate 100 ⟨"ethereum", "0xaa", 1⟩) ⟨"arbitrum", "0xbb", 2⟩).length
      = maxQueueSize :=
  have h := (addToQueue_capacity_and_overflow []
    (List.replicate 100 ⟨"ethereum", "0xaa", 1⟩) ⟨"arbitrum", "0xbb", 2⟩).2
    (by simp [maxQueueSize])
  ⟨h.1, h.2.1⟩

/-! ## Claim C5 -/

/-- Claim C5: `executeTrade` never throws to its caller. A misconfigured
network returns a descriptive failure before the `try` block; every error
thrown inside the `try` block is caught and returned as
`{success: false, error}` with the error string equal to the contract
revert reason when present, else the raw message, truncated at the first
parenthesis and trimmed; and every failure result carries an error string
and no transaction hash. -/
theorem executeTrade_never_throws (env : ChainEnv) (p : TradeParams) :
    (env.networkConfigured = false →
      executeTrade env p =
        ⟨false, none, some ("Network " ++ p.network ++ " not configured for trading")⟩) ∧
    (∀ e : JsError, env.networkConfigured = true →
      executeTradeBody env p = .error e →
      executeTrade env p = ⟨false, none, some (simplifyError e)⟩) ∧
    ((executeTrade env p).success = false →
      (executeTrade env p).txHash = none ∧
      ((executeTrade env p).error).isSome = true) := by
  refine ⟨fun h => by simp [executeTrade, h], fun e hc hb => by simp [executeTrade, hc, hb],
    fun hf => ?_⟩
  cases hc : env.networkConfigured
  · simp [executeTrade, hc]
  · cases hb : executeTradeBody env p with
    | ok h => simp [executeTrade, hc, hb] at hf
    | error e => simp [executeTrade, hc, hb]

/-- Witness for C5: a read-only network yields the configuration failure,
and a reverted swap yields the revert reason truncated at the parenthesis
("STF (transfer amount exceeds balance)" becomes "STF"). -/
theorem executeTrade_never_throws_witness :
    executeTrade envNotConfigured tradeParamsOverBalance
      = ⟨false, none, some "Network ethereum not configured for trading"⟩ ∧
    executeTrade envInsufficientBalance tradeParamsOverBalance
      = ⟨false, none, some "STF"⟩ := by
  constructor
  · have h := (executeTrade_never_throws envNotConfigured tradeParamsOverBalance).1 rfl
    exact h.trans (by decide)
  · have h := (executeTrade_never_throws envInsufficientBalance tradeParamsOverBalance).2.1
      ⟨some "STF (transfer amount exceeds balance)", "execution reverted"⟩ rfl rfl
    exact h.trans (by decide)

/-! ## Claim C6 -/

/-- Counterexample to claim C6: at a concrete input whose `amountIn` (100
wei) exceeds the signer's balance (0 wei), `executeTrade` still reaches the
swap submission — the claim that no swap transaction is submitted is false.
The result is nonetheless `{success: false}` with an error string and no
transaction hash. -/
theorem executeTrade_insufficient_balance_counterexample :
    envInsufficientBalance.balanceOfTokenIn < tradeParamsOverBalance.amountIn ∧
    swapSubmitted envInsufficientBalance tradeParamsOverBalance = true ∧
    executeTrade envInsufficientBalance tradeParamsOverBalance
      = ⟨false, none, some "STF"⟩ := by
  refine ⟨by norm_num [envInsufficientBalance, tradeParamsOverBalance], by decide, by decide⟩

/-- Claim C6 as amended: `executeTrade` performs no balance check at all —
its result and whether the swap submission is reached are invariant under
any change of the signer's balance — and when the submitted swap fails, the
failure comes back as `{success: false, error}` with no transaction hash in
the result, even though the swap transaction was submitted. -/
theorem executeTrade_balance_never_consulted (env : ChainEnv) (p : TradeParams)
    (b : ℤ) :
    executeTrade { env with balanceOfTokenIn := b } p = executeTrade env p ∧
    swapSubmitted { env with balanceOfTokenIn := b } p = swapSubmitted env p ∧
    (∀ e : JsError, env.networkConfigured = true →
      executeTradeBody env p = .error e →
      swapSubmitted env p = true →
      executeTrade env p = ⟨false, none, some (simplifyError e)⟩) :=
  ⟨rfl, rfl, fun e hc hb _hsub => by simp [executeTrade, hc, hb]⟩

/-- Witness for the amended C6: changing the balance from 0 to 5 wei leaves
the result unchanged, and the reverted over-balance swap returns the
normalised failure result. -/
theorem executeTrade_balance_never_consulted_witness :
    executeTrade { envInsufficientBalance with balanceOfTokenIn := 5 }
        tradeParamsOverBalance
      = executeTrade envInsufficientBalance tradeParamsOverBalance ∧
    executeTrade envInsufficientBalance tradeParamsOverBalance
      = ⟨false, none,
          some (simplifyError ⟨some "STF (transfer amount exceeds balance)",
            "execution reverted"⟩)⟩ :=
  ⟨(executeTrade_balance_never_consulted envInsufficientBalance
      tradeParamsOverBalance 5).1,
   (executeTrade_balance_never_consulted envInsufficientBalance
      tradeParamsOverBalance 5).2.2
      ⟨some "STF (transfer amount exceeds balance)", "execution reverted"⟩
      rfl rfl (by decide)⟩

/-! ## Claim C9 -/

/-- Claim C9: with the error count at the cap of 5, a last error 10 seconds
old and the 30-second backoff window, `shouldSkipProcessing` returns true
without touching the state; once 31 seconds have elapsed since the last
error and the cooldown since the last processed timestamp has elapsed, the
next call resets the error counter to 0 and returns false. -/
theorem shouldSkipProcessing_backoff_scenario (st : QueueState) (now1 now2 : ℤ)
    (hbusy : st.isGloballyProcessing = false)
    (herr : st.consecutiveErrors = 5)
    (h10 : now1 - st.lastErrorTime = 10000) :
    shouldSkipProcessing st now1 = (true, st) ∧
    (now2 - st.lastErrorTime = 31000 →
      st.processingCooldown ≤ now2 - st.lastProcessedTime →
      shouldSkipProcessing st now2 = (false, { st with consecutiveErrors := 0 })) := by
  constructor
  · unfold shouldSkipProcessing
    rw [hbusy, if_neg (by simp)]
    rw [if_pos (by rw [herr]; norm_num [maxConsecutiveErrors])]
    rw [if_pos (by rw [h10]; norm_num [errorBackoffTime])]
  · intro h31 hcool
    unfold shouldSkipProcessing
    rw [hbusy, if_neg (by simp)]
    rw [if_pos (by rw [herr]; norm_num [maxConsecutiveErrors])]
    rw [if_neg (by rw [h31]; norm_num [errorBackoffTime])]
    have : decide (now2 - st.lastProcessedTime < st.processingCooldown) = false :=
      decide_eq_false (not_lt.mpr hcool)
    simp only [this]

/-- Witness for C9 at a concrete state: errors at the cap, last error at
time 0, queried at 10 s and then at 31 s with a 1-second cooldown. -/
theorem shouldSkipProcessing_backoff_scenario_witness :
    shouldSkipProcessing ⟨false, 5, 0, 0, 1000⟩ 10000 = (true, ⟨false, 5, 0, 0, 1000⟩) ∧
    shouldSkipProcessing ⟨false, 5, 0, 0, 1000⟩ 31000 = (false, ⟨false, 0, 0, 0, 1000⟩) := by
  have h := shouldSkipProcessing_backoff_scenario ⟨false, 5, 0, 0, 1000⟩ 10000 31000
    rfl rfl (by norm_num)
  exact ⟨h.1, h.2 (by norm_num) (by norm_num)⟩

/-! ## Claim C2 -/

/-- Counterexample to claim C2: at buy-side reserves `a = 1`, `d = 1` and
sell-side reserve `b = c = 2`, the optimal-amount formula yields the
negative value `−2/3`, yet the computed opportunity carries it unchanged in
`tradeAmount`, the threshold policy (deviation 5% against the default
0.2%/0.1% thresholds, key configured) still decides to execute, and the
gas-buffer balance guard of `executeArbitrage` passes — so a trade of that
negative size is dispatched, contradicting "treated as no opportunity, no
trade of that size is ever executed". -/
theorem calculateOptimalTradeAmount_negative_executed_counterexample :
    calculateOptimalTradeAmount 1 2 2 1 < 0 ∧
    (calculateArbitrageOpportunityWithOptimalAmount (1/100) (1/105) 2000 1 2 2 1).tradeAmount
      = calculateOptimalTradeAmount 1 2 2 1 ∧
    scanDecision
      (calculateArbitrageOpportunityWithOptimalAmount (1/100) (1/105) 2000 1 2 2 1).profitPercentage
      (2/10) (1/10) true = .executeTrade ∧
    wethBalanceCheckPasses 1
      (calculateArbitrageOpportunityWithOptimalAmount (1/100) (1/105) 2000 1 2 2 1).tradeAmount := by
  have hsqrt : Real.sqrt ((1:ℝ) * 2 * 2 * 1) = 2 := by
    rw [show ((1:ℝ) * 2 * 2 * 1) = 2 ^ 2 by norm_num]
    exact Real.sqrt_sq (by norm_num)
  have hopt : calculateOptimalTradeAmount 1 2 2 1 = -(2/3) := by
    rw [calculateOptimalTradeAmount, hsqrt]; norm_num
  have hcond : ¬((1/100 : ℝ) * 2000 < (1/105) * 2000) := by norm_num
  have hopp : calculateArbitrageOpportunityWithOptimalAmount (1/100) (1/105) 2000 1 2 2 1
      = { buyNetwork := .arbitrum, sellNetwork := .ethereum,
          buyPrice := (1/105) * 2000, sellPrice := (1/100) * 2000,
          profitPercentage := ((1/100) * 2000 - (1/105) * 2000) / ((1/105) * 2000) * 100,
          estimatedProfit := |(1/100 : ℝ) * 2000 - (1/105) * 2000|,
          gasEstimate := 230000,
          tradeAmount := calculateOptimalTradeAmount 1 2 2 1 } := by
    rw [calculateArbitrageOpportunityWithOptimalAmount]
    rw [if_neg hcond]
  have hprofit : ((1/100 : ℝ) * 2000 - (1/105) * 2000) / ((1/105) * 2000) * 100 = 5 := by
    norm_num
  refine ⟨by rw [hopt]; norm_num, by rw [hopp], ?_, ?_⟩
  · rw [hopp]
    show scanDecision (((1/100 : ℝ) * 2000 - (1/105) * 2000) / ((1/105) * 2000) * 100)
      (2/10) (1/10) true = _
    rw [hprofit, scanDecision, if_neg (by norm_num), if_pos (by norm_num)]
    rfl
  · rw [hopp]
    show wethBalanceCheckPasses 1 (calculateOptimalTradeAmount 1 2 2 1)
    rw [wethBalanceCheckPasses, hopt]
    norm_num

/-- Claim C2 as amended: the optimal trade amount is computed as
`(sqrt(a·b·c·d) − b·c)/(a + c)` from the two pools' reserves, but its sign
is never checked: the opportunity carries it verbatim in `tradeAmount`, and
whenever the opportunity's profit percentage clears the two thresholds with
a key configured, the scan decides to execute a trade of exactly that size;
the only pre-trade guard compares the balance against
`tradeAmount + 0.01`, which any sufficient (in particular, for a negative
amount, any nonnegative) balance passes. -/
theorem calculateOptimalTradeAmount_negative_not_filtered
    (ethRate arbRate ethUsd a b c d bal minp : ℝ)
    (hbal : bal < (calculateArbitrageOpportunityWithOptimalAmount ethRate arbRate ethUsd a b c d).profitPercentage)
    (hminp : minp ≤ (calculateArbitrageOpportunityWithOptimalAmount ethRate arbRate ethUsd a b c d).profitPercentage) :
    (calculateArbitrageOpportunityWithOptimalAmount ethRate arbRate ethUsd a b c d).tradeAmount
      = (Real.sqrt (a * b * c * d) - b * c) / (a + c) ∧
    scanDecision
      (calculateArbitrageOpportunityWithOptimalAmount ethRate arbRate ethUsd a b c d).profitPercentage
      bal minp true = .executeTrade ∧
    (∀ wethBalance : ℝ,
      (calculateArbitrageOpportunityWithOptimalAmount ethRate arbRate ethUsd a b c d).tradeAmount + 1/100
        ≤ wethBalance →
      wethBalanceCheckPasses wethBalance
        (calculateArbitrageOpportunityWithOptimalAmount ethRate arbRate ethUsd a b c d).tradeAmount) := by
  refine ⟨?_, ?_, fun wB h => not_lt.mpr h⟩
  · rw [calculateArbitrageOpportunityWithOptimalAmount]
    split <;> rfl
  · rw [scanDecision, if_neg (not_le.mpr hbal), if_pos hminp]
    rfl

/-- Witness for the amended C2 at reserves `a = 4`, `b = c = 3`, `d = 4`
and the same quotes: the deviation 5% clears both default thresholds and
the trade amount is the closed-form value. -/
theorem calculateOptimalTradeAmount_negative_not_filtered_witness :
    scanDecision
      (calculateArbitrageOpportunityWithOptimalAmount (1/100) (1/105) 2000 4 3 3 4).profitPercentage
      (2/10) (1/10) true = .executeTrade ∧
    (calculateArbitrageOpportunityWithOptimalAmount (1/100) (1/105) 2000 4 3 3 4).tradeAmount
      = (Real.sqrt ((4:ℝ) * 3 * 3 * 4) - 3 * 3) / (4 + 3) := by
  have hopp : calculateArbitrageOpportunityWithOptimalAmount (1/100) (1/105) 2000 4 3 3 4
      = { buyNetwork := .arbitrum, sellNetwork := .ethereum,
          buyPrice := (1/105) * 2000, sellPrice := (1/100) * 2000,
          profitPercentage := ((1/100) * 2000 - (1/105) * 2000) / ((1/105) * 2000) * 100,
          estimatedProfit := |(1/100 : ℝ) * 2000 - (1/105) * 2000|,
          gasEstimate := 230000,
          tradeAmount := calculateOptimalTradeAmount 4 3 3 4 } := by
    rw [calculateArbitrageOpportunityWithOptimalAmount]
    rw [if_neg (by norm_num)]
  have h1 : (2/10 : ℝ)
      < (calculateArbitrageOpportunityWithOptimalAmount (1/100) (1/105) 2000 4 3 3 4).profitPercentage := by
    rw [hopp]; norm_num
  have h2 : (1/10 : ℝ)
      ≤ (calculateArbitrageOpportunityWithOptimalAmount (1/100) (1/105) 2000 4 3 3 4).profitPercentage := by
    rw [hopp]; norm_num
  have h := calculateOptimalTradeAmount_negative_not_filtered
    (1/100) (1/105) 2000 4 3 3 4 (2/10) (1/10) h1 h2
  exact ⟨h.2.1, h.1⟩

/-! ## Claim C10 -/

/-- Claim C10: in `generateRandomTradeAmount` the 80%-of-deficit cap
(`Math.min`) is applied after the $150 floor (`Math.max`), so for every
positive deficit and price, every attempt number and every random draw in
`[0, 1)`, the returned amount never exceeds `0.8·deficit/price`; and when
`0.8·deficit` is below $150 the returned amount equals the cap and falls
strictly below the $150-equivalent floor — the cap takes precedence. -/
theorem generateRandomTradeAmount_cap_after_floor
    (volumeDeficit ethPrice : ℝ) (attemptNumber : ℕ) (minMult maxMult r : ℝ)
    (_hd : 0 < volumeDeficit) (hp : 0 < ethPrice) (_hr0 : 0 ≤ r) (_hr1 : r < 1) :
    generateRandomTradeAmount volumeDeficit ethPrice attemptNumber minMult maxMult r
      ≤ volumeDeficit * (8/10) / ethPrice ∧
    (volumeDeficit * (8/10) < 150 →
      generateRandomTradeAmount volumeDeficit ethPrice attemptNumber minMult maxMult r
        = volumeDeficit * (8/10) / ethPrice ∧
      generateRandomTradeAmount volumeDeficit ethPrice attemptNumber minMult maxMult r
        < 150 / ethPrice) := by
  simp only [generateRandomTradeAmount]
  refine ⟨min_le_right _ _, fun hsmall => ?_⟩
  have hlt : volumeDeficit * (8/10) / ethPrice < 150 / ethPrice :=
    (div_lt_div_iff_of_pos_right hp).mpr hsmall
  have hmax : volumeDeficit * (8/10) / ethPrice
      ≤ max (volumeDeficit / ethPrice * (r * (maxMult - minMult) + minMult)
          * (1 / Real.sqrt ((attemptNumber : ℝ) + 1))) (150 / ethPrice) :=
    le_trans hlt.le (le_max_right _ _)
  exact ⟨min_eq_right hmax, by rw [min_eq_right hmax]; exact hlt⟩

/-- Witness for C10: deficit $100 at price $2000 with attempt 0, band
[0.5, 2] and draw 0 — since 80% of $100 is below $150, the returned amount
is the cap 0.04 ETH, below the floor 0.075 ETH. -/
theorem generateRandomTradeAmount_cap_after_floor_witness :
    (0:ℝ) < 100 ∧ (0:ℝ) < 2000 ∧ (100:ℝ) * (8/10) < 150 ∧
    generateRandomTradeAmount 100 2000 0 (1/2) 2 0 = 100 * (8/10) / 2000 ∧
    generateRandomTradeAmount 100 2000 0 (1/2) 2 0 < 150 / 2000 := by
  have h := (generateRandomTradeAmount_cap_after_floor 100 2000 0 (1/2) 2 0
    (by norm_num) (by norm_num) (by norm_num) (by norm_num)).2 (by norm_num)
  exact ⟨by norm_num, by norm_num, by norm_num, h.1, h.2⟩

end ArbVol
